import Mathlib

/-!
Shallow embedding of the `timeline_plugin_git` server component
(`src/server.rs`) and proofs of the specification claims.

The async database (mongodb) and the `types` crate are external
collaborators; their observable behaviour is modelled as a pure list-backed
store, and the filter helpers (`generate_find_plugin_filter`,
`generate_range_filter`) are modelled from the spec where their code is not
part of this repository.  The blocking walker thread is modelled by an
explicit `ThreadResult` (a computation either panicking or finishing), and
`handle.join()` by `joinHandle`, which converts a contained panic into an
error string exactly as `std::thread::JoinHandle::join` surfaces it to the
caller in the source.
-/

namespace GitPlugin

/-- Plugin identity tags (`types::api::AvailablePlugins`). Only the git tag
is used by this component; `other` stands for any foreign plugin tag. -/
inductive AvailablePlugins where
  | timeline_plugin_git
  | other (name : String)
deriving DecidableEq, Repr

/-- Model of `types::timing::Timing`: either an instant or a period, in epoch
milliseconds. -/
inductive Timing where
  | instant (millis : Int)
  | period (startMillis endMillis : Int)
deriving DecidableEq, Repr

/-- Model of `types::timing::TimeRange`: a closed query range in epoch millis. -/
structure TimeRange where
  startMillis : Int
  endMillis : Int
deriving DecidableEq, Repr

/-- Modelled from the spec: `Database::generate_range_filter` selects records
whose timing intersects the query range (the filter helper lives in the host
project's `db` module, outside this repository). -/
def Timing.intersects : Timing → TimeRange → Bool
  | .instant t, r => decide (r.startMillis ≤ t ∧ t ≤ r.endMillis)
  | .period a b, r => decide (a ≤ r.endMillis ∧ r.startMillis ≤ b)

/-- The commit payload persisted in the store (`DatabaseCommit`). -/
structure DatabaseCommit where
  message : String
  author : String
  repository_name : String
deriving DecidableEq, Repr

/-- Model of `db::Event<T>`: a stored, timestamped event record. -/
structure Event (α : Type) where
  timing : Timing
  id : String
  plugin : AvailablePlugins
  event : α
deriving DecidableEq, Repr

/-- The event store, modelled as the ordered list of persisted records. -/
abbrev Store := List (Event DatabaseCommit)

/-- Model of `types::api::CompressedEvent` as produced by this plugin. -/
structure CompressedEvent where
  title : String
  time : Timing
  data : DatabaseCommit
deriving DecidableEq, Repr

/- ### chrono time model -/

/-- Lower bound of chrono's representable `NaiveDateTime` range, in
milliseconds since the epoch (about 262000 years before the common era). -/
def chronoMinMillis : Int := -8334601228800000

/-- Upper bound of chrono's representable `NaiveDateTime` range, in
milliseconds since the epoch (about 262000 years into the future). -/
def chronoMaxMillis : Int := 8210266876799999

/-- Model of `chrono::FixedOffset`: a fixed timezone offset, stored as seconds east
of UTC (chrono's `local_minus_utc` field). -/
structure FixedOffset where
  eastSeconds : Int
deriving DecidableEq, Repr

/-- Model of `FixedOffset::west_opt(secs)`: builds the offset for a timezone `secs`
seconds west of UTC, i.e. with `local_minus_utc = -secs`; `None` when the
argument is out of the open interval (-86400, 86400). -/
def FixedOffset.west_opt (secs : Int) : Option FixedOffset :=
  if -86400 < secs ∧ secs < 86400 then some ⟨-secs⟩ else none

/-- A `chrono::DateTime<FixedOffset>`: an absolute instant (naive UTC
milliseconds) tagged with a display offset. -/
structure DateTimeTz where
  utcMillis : Int
  offset : FixedOffset
deriving DecidableEq, Repr

/-- Model of `TimeZone::timestamp_millis_opt` on a `FixedOffset`: interprets the
argument as milliseconds since the UTC epoch and returns the instant tagged
with the offset, or `None` when the instant is outside chrono's
representable range. -/
def FixedOffset.timestamp_millis_opt (tz : FixedOffset) (millis : Int) :
    Option DateTimeTz :=
  if chronoMinMillis ≤ millis ∧ millis ≤ chronoMaxMillis then
    some ⟨millis, tz⟩
  else none

/-- Model of `DateTime::<Utc>::from`: dropping the offset keeps the absolute instant. -/
def DateTimeTz.toUtc (d : DateTimeTz) : Int := d.utcMillis

/-- The local wall-clock reading of an offset-tagged instant (chrono computes
local time as the naive UTC time plus `local_minus_utc`). -/
def DateTimeTz.localMillis (d : DateTimeTz) : Int :=
  d.utcMillis + d.offset.eastSeconds * 1000

/- ### The walker thread -/

/-- Outcome of the spawned walker thread: either the closure's return value,
or a panic payload caught at the thread boundary. -/
inductive ThreadResult (α : Type) where
  | panicked (payload : String)
  | finished (val : α)
deriving DecidableEq, Repr

/-- The raw data git2 exposes for one commit: its id, its optional message
(`git2::Commit::message` is `Option<&str>`), its author display string, and
its `git2::Time` (epoch seconds plus timezone offset in minutes; the spec
describes the offset as measured in minutes west of UTC). -/
structure RawCommit where
  id : String
  message : Option String
  seconds : Int
  offsetMinutes : Int
  author : String
deriving DecidableEq, Repr

/-- One step of the revwalk as observed by the loop body in
`get_commits_in_repo`: the walk iterator itself may error, `find_commit`
may error, or a commit is produced. -/
inductive WalkStep where
  | walkErr (e : String)
  | findErr (e : String)
  | commit (c : RawCommit)
deriving DecidableEq, Repr

/-- A parsed commit (`struct Commit` in `server.rs`); `time` is the
`DateTime<Utc>` instant in milliseconds. -/
structure Commit where
  id : String
  message : String
  author : String
  timeUtcMillis : Int
  repository_name : String
deriving DecidableEq, Repr

/-- The two-unwrap time normalization in the walker loop:
`FixedOffset::west_opt(offset_minutes * 60).unwrap()` followed by
`offset.timestamp_millis_opt(seconds * 1000).unwrap()`; an `unwrap` of
`None` panics inside the walker thread. -/
def normalizeCommitTime (seconds offsetMinutes : Int) :
    ThreadResult DateTimeTz :=
  match FixedOffset.west_opt (offsetMinutes * 60) with
  | none => .panicked "called Option::unwrap() on a None value"
  | some offset =>
    match offset.timestamp_millis_opt (seconds * 1000) with
    | none => .panicked "called Option::unwrap() on a None value"
    | some timestamp => .finished timestamp

/-- The revwalk loop of `get_commits_in_repo`: processes the steps in order,
returning early with an error on a walk error, a `find_commit` error or a
missing message, and panicking (inside the thread) when time normalization
unwraps `None`. -/
def parseSteps (path repoName : String) :
    List WalkStep → ThreadResult (Except String (List Commit))
  | [] => .finished (.ok [])
  | .walkErr e :: _ =>
    .finished (.error ("Unable to walk along commit graph: \nPath: " ++
      path ++ " \nError: " ++ e))
  | .findErr e :: _ =>
    .finished (.error
      ("Unable to find a commit from revwalk in repository: \nPath: " ++
        path ++ " \nError: " ++ e))
  | .commit c :: rest =>
    match c.message with
    | none =>
      .finished (.error ("Unable to read commit message: \nPath: " ++ path))
    | some msg =>
      match normalizeCommitTime c.seconds c.offsetMinutes with
      | .panicked p => .panicked p
      | .finished timestamp =>
        match parseSteps path repoName rest with
        | .panicked p => .panicked p
        | .finished (.error e) => .finished (.error e)
        | .finished (.ok cs) =>
          .finished (.ok
            ({ id := c.id, message := msg, author := c.author,
               timeUtcMillis := timestamp.toUtc,
               repository_name := repoName } :: cs))

/-- How far the walker gets before the per-commit loop: `Repository::open`,
`repo.revwalk()`, and the `(set_sorting, push_head)` pair can each fail;
otherwise the revwalk yields a list of steps. -/
inductive RepoAccess where
  | openErr (e : String)
  | revwalkErr (e : String)
  | bothErr (eSort eHead : String)
  | sortErr (e : String)
  | headErr (e : String)
  | walk (steps : List WalkStep)
deriving DecidableEq, Repr

/-- The closure passed to `thread::spawn` in `get_commits_in_repo`. -/
def threadBody (path repoName : String) (access : RepoAccess) :
    ThreadResult (Except String (List Commit)) :=
  match access with
  | .openErr e =>
    .finished (.error ("Unable to read repository: \nPath: " ++ path ++
      " \nError: " ++ e))
  | .revwalkErr e =>
    .finished (.error ("Unable to read commits of repository: \nPath: " ++
      path ++ " \nError: " ++ e))
  | .bothErr eSort eHead =>
    .finished (.error
      ("Was unable to set sorting and append head to revwalk. \nPath: " ++
        path ++ " \nError Sorting: " ++ eSort ++ " \nError Head: " ++ eHead))
  | .sortErr e =>
    .finished (.error ("Was unable to set sorting: \nPath: " ++ path ++
      " \nError: " ++ e))
  | .headErr e =>
    .finished (.error ("Was unable to append head: \nPath: " ++ path ++
      " \nError: " ++ e))
  | .walk steps => parseSteps path repoName steps

/-- Model of `handle.join()` followed by the nested match in `get_commits_in_repo`:
a normal return passes through, a panic caught at the join becomes an
error string. -/
def joinHandle (r : ThreadResult (Except String (List Commit))) :
    Except String (List Commit) :=
  match r with
  | .panicked payload =>
    .error ("Unable to join handle on update thread: " ++ payload)
  | .finished v => v

/- ### Deduplication & persistence gate -/

/-- Whether the store holds a record with this component's plugin tag and the
given event id. -/
def presentGit (store : Store) (i : String) : Bool :=
  store.any fun e =>
    decide (e.plugin = AvailablePlugins.timeline_plugin_git) && e.id == i

/-- The `$in` query of `insert_new_commits_into_database`: the ids of the
stored records whose plugin tag is this component's and whose id is among
the candidate ids (mongodb find with
`generate_find_plugin_filter AND id $in ids`, collected to a `Vec` of ids). -/
def findExistingIds (store : Store) (ids : List String) : List String :=
  (store.filter fun e =>
    decide (e.plugin = AvailablePlugins.timeline_plugin_git) &&
      ids.contains e.id).map (·.id)

/-- The record constructed for one commit in the insert loop. -/
def commitToEvent (c : Commit) : Event DatabaseCommit :=
  { timing := Timing.instant c.timeUtcMillis,
    id := c.id,
    plugin := AvailablePlugins.timeline_plugin_git,
    event := { author := c.author, message := c.message,
               repository_name := c.repository_name } }

/-- The `for commit in commits { if !already_inserted_commits.contains(..) }`
loop: keeps, in order, each commit whose id is not among the
already-inserted ids, building its store record. -/
def buildInsert (commits : List Commit) (already : List String) :
    List (Event DatabaseCommit) :=
  (commits.filter fun c => !already.contains c.id).map commitToEvent

/-- Model of `Database::register_events`: appends the batch to the store. -/
def register_events (store : Store) (evs : List (Event DatabaseCommit)) :
    Store := store ++ evs

/-- Result of one call to the dedup gate: the store afterwards and whether
`register_events` was invoked. -/
structure InsertResult where
  store : Store
  wrote : Bool
deriving DecidableEq, Repr

/-- Model of `insert_new_commits_into_database`: queries the already-present ids,
filters them out of the batch, and batch-inserts the rest only when the
difference is non-empty. -/
def insert_new_commits_into_database (store : Store) (commits : List Commit) :
    InsertResult :=
  let ids := commits.map (·.id)
  let already_inserted_commits := findExistingIds store ids
  let insert := buildInsert commits already_inserted_commits
  if insert.isEmpty then { store := store, wrote := false }
  else { store := register_events store insert, wrote := true }

/- ### Per-repository processing and the directory scan -/

/-- One candidate repository directory: its display path, the result of
`path.file_name()` (the repository name; `None` when the path has no last
component — Lean strings are always valid UTF-8, so the `to_str` failure
branch of the source is unrepresentable here), and what opening and walking
the repository yields. -/
structure RepoDir where
  path : String
  fileName : Option String
  access : RepoAccess
deriving DecidableEq, Repr

/-- Model of `get_commits_in_repo`: derives the repository name, runs the walker on
its own thread, joins it, and hands the parsed commits to the dedup gate.
The store is the external database: mutations made before a failure persist,
so the function returns the store alongside the `Result<(), String>`. -/
def get_commits_in_repo (store : Store) (d : RepoDir) :
    Store × Except String Unit :=
  match d.fileName with
  | none =>
    (store, .error
      "Unable to identify repository name. There is no last path component.")
  | some repoName =>
    match joinHandle (threadBody d.path repoName d.access) with
    | .error e => (store, .error e)
    | .ok commits =>
      ((insert_new_commits_into_database store commits).store, .ok ())

/-- Result of `tokio::fs::DirEntry::file_type()`. -/
inductive EntryType where
  | dir
  | file
  | symlink
deriving DecidableEq, Repr

deriving instance DecidableEq for Except

/-- One directory entry of the configured root folder: the (possibly
failing) file-type probe and the repository data behind the entry's path. -/
structure DirEntry where
  fileTypeResult : Except String EntryType
  repoDir : RepoDir
deriving DecidableEq, Repr

/-- The entry loop of `update_commits`: for each entry, a file-type probe
failure aborts the cycle; directory entries are handed to
`get_commits_in_repo` (whose failure also aborts, via `?`); other entries
are skipped. -/
def update_commits_aux (store : Store) :
    List DirEntry → Store × Except String Unit
  | [] => (store, .ok ())
  | entry :: rest =>
    match entry.fileTypeResult with
    | .error e =>
      (store, .error ("Unable to check directory entry for file-type: " ++ e))
    | .ok t =>
      if t = EntryType.dir then
        match get_commits_in_repo store entry.repoDir with
        | (store2, .error e) => (store2, .error e)
        | (store2, .ok _) => update_commits_aux store2 rest
      else update_commits_aux store rest

/-- Model of `update_commits`: reads the configured root folder (which may itself
fail) and runs the entry loop. -/
def update_commits (store : Store)
    (rootListing : Except String (List DirEntry)) :
    Store × Except String Unit :=
  match rootListing with
  | .error e =>
    (store, .error ("Unable to read repositories directory: " ++ e))
  | .ok entries => update_commits_aux store entries

/-- Spec-side restatement of the scanner contract: the walker applied, in
order, to exactly a given list of repository directories. -/
def foldRepos (store : Store) : List RepoDir → Store × Except String Unit
  | [] => (store, .ok ())
  | d :: rest =>
    match get_commits_in_repo store d with
    | (store2, .error e) => (store2, .error e)
    | (store2, .ok _) => foldRepos store2 rest

/- ### Scheduling loop -/

/-- Model of `chrono::Duration::try_minutes`: `Some` of the duration (modelled in
milliseconds) unless the equivalent millisecond count overflows the i64
bounds of `chrono::Duration`. -/
def Duration.try_minutes (m : Int) : Option Int :=
  if -(2 ^ 63) ≤ m * 60000 ∧ m * 60000 ≤ 2 ^ 63 - 1 then some (m * 60000)
  else none

/-- What one pass of `request_loop` produces: the strings handed to
`report_error_string` and the returned `Option<Duration>` delay. -/
structure LoopOutcome where
  reported : List String
  delay : Option Int
deriving DecidableEq, Repr

/-- Model of `request_loop`: reports a cycle failure through the error side channel,
then returns `Some(Duration::try_minutes(15).unwrap())` unconditionally;
the `unwrap` would be a process-level panic, modelled by `ThreadResult`. -/
def request_loop (updateResult : Except String Unit) :
    ThreadResult LoopOutcome :=
  let reported := match updateResult with
    | .error e => ["Unable to refresh recent commits: " ++ e]
    | .ok _ => []
  match Duration.try_minutes 15 with
  | none => .panicked "called Option::unwrap() on a None value"
  | some d => .finished { reported := reported, delay := some d }

/- ### Query adapter -/

/-- Modelled from the spec: the combined find filter of
`get_compressed_events` — `generate_find_plugin_filter(git)` AND
`generate_range_filter(query_range)` select the records with this
component's tag whose timing intersects the range (the filter builders live
in the host project's `db` module, outside this repository). -/
def matchesQuery (range : TimeRange) (e : Event DatabaseCommit) : Bool :=
  decide (e.plugin = AvailablePlugins.timeline_plugin_git) &&
    e.timing.intersects range

/-- The cursor loop of `get_compressed_events`: each stream item may be an
error (`v?` aborts the whole query, discarding the accumulated result) or a
record, which becomes a `CompressedEvent` titled with its repository name. -/
def collectEvents :
    List (Except String (Event DatabaseCommit)) →
      Except String (List CompressedEvent)
  | [] => .ok []
  | .error e :: _ => .error e
  | .ok t :: rest =>
    match collectEvents rest with
    | .error e => .error e
    | .ok result =>
      .ok ({ title := t.event.repository_name, time := t.timing,
             data := t.event } :: result)

/-- Model of `get_compressed_events` on a healthy stream: the cursor yields exactly
the store records matching the combined filter, in store order. -/
def get_compressed_events (store : Store) (range : TimeRange) :
    Except String (List CompressedEvent) :=
  collectEvents ((store.filter (matchesQuery range)).map Except.ok)

/- ### Helper lemmas on the dedup gate -/

/-- For a candidate id, membership in the `$in` query result coincides with
the id being present in the store under this component's tag. -/
theorem contains_findExistingIds (store : Store) (ids : List String)
    (i : String) (hi : i ∈ ids) :
    (findExistingIds store ids).contains i = presentGit store i := by
  rw [Bool.eq_iff_iff]
  simp only [findExistingIds, presentGit, List.elem_eq_mem,
    decide_eq_true_eq, List.mem_map, List.mem_filter, List.any_eq_true,
    Bool.and_eq_true, beq_iff_eq]
  constructor
  · rintro ⟨e, ⟨he, hplug, -⟩, hid⟩
    exact ⟨e, he, hplug, hid⟩
  · rintro ⟨e, he, hplug, hid⟩
    exact ⟨e, ⟨he, hplug, by simpa [hid] using hi⟩, hid⟩

/-- The batch the gate hands to `register_events` is exactly the commits
whose ids are absent from the store under this component's tag. -/
theorem buildInsert_eq (store : Store) (commits : List Commit) :
    buildInsert commits (findExistingIds store (commits.map (·.id))) =
      (commits.filter fun c => !presentGit store c.id).map commitToEvent := by
  unfold buildInsert
  congr 1
  refine List.filter_congr fun c hc => ?_
  rw [contains_findExistingIds store _ c.id (List.mem_map_of_mem (·.id) hc)]

/-- The store after one gate call is the old store with exactly the missing
commits' records appended (also when nothing was missing). -/
theorem insert_store_eq (store : Store) (commits : List Commit) :
    (insert_new_commits_into_database store commits).store =
      store ++
        (commits.filter fun c => !presentGit store c.id).map commitToEvent := by
  simp only [insert_new_commits_into_database, buildInsert_eq]
  split
  · next h =>
    rw [List.isEmpty_iff] at h
    simp [h, register_events]
  · rfl

/-- After one gate call every id of the batch is present in the store under
this component's tag. -/
theorem presentGit_after_insert (store : Store) (commits : List Commit)
    (c : Commit) (hc : c ∈ commits) :
    presentGit (insert_new_commits_into_database store commits).store c.id
      = true := by
  rw [insert_store_eq]
  rcases hp : presentGit store c.id with - | -
  · unfold presentGit
    rw [List.any_append]
    rw [Bool.or_eq_true]
    right
    rw [List.any_eq_true]
    refine ⟨commitToEvent c, List.mem_map_of_mem commitToEvent ?_, by
      simp [commitToEvent]⟩
    rw [List.mem_filter]
    refine ⟨hc, ?_⟩
    show (!presentGit store c.id) = true
    rw [hp]
    rfl
  · unfold presentGit
    rw [List.any_append]
    rw [Bool.or_eq_true]
    left
    exact hp

/- ### Concrete fixtures used by witnesses and counterexamples -/

/-- A parsed commit with the given id, for the dedup scenarios. -/
def walkCommit (i : String) : Commit :=
  { id := i, message := "message " ++ i, author := "author",
    timeUtcMillis := 0, repository_name := "demo" }

/-- A store already holding commit ids A and B under this component's tag. -/
def storeAB : Store :=
  [commitToEvent (walkCommit "A"), commitToEvent (walkCommit "B")]

/-- First of two batch entries sharing the id X. -/
def dupOne : Commit :=
  { id := "X", message := "first", author := "a1", timeUtcMillis := 5,
    repository_name := "demo" }

/-- Second of two batch entries sharing the id X. -/
def dupTwo : Commit :=
  { id := "X", message := "second", author := "a2", timeUtcMillis := 6,
    repository_name := "demo" }

/- ### Claim theorems -/

/-- C4: for every batch of extracted commits and every store state, the
dedup gate appends exactly the commits whose ids are not already present in
the store under this component's source tag (in batch order); in
particular, with a store containing ids A and B and a walk producing
A, B, C, exactly the one record for C is inserted. -/
theorem C4_dedup_inserts_exactly_missing :
    (∀ (store : Store) (commits : List Commit),
      (insert_new_commits_into_database store commits).store =
        store ++
          (commits.filter fun c => !presentGit store c.id).map commitToEvent)
    ∧ (insert_new_commits_into_database storeAB
        [walkCommit "A", walkCommit "B", walkCommit "C"]).store =
      storeAB ++ [commitToEvent (walkCommit "C")] := by
  refine ⟨fun store commits => insert_store_eq store commits, ?_⟩
  rfl

/-- C5: ingestion is idempotent: feeding the same batch to the dedup gate a
second time inserts nothing — the gate performs no insert call at all
(`wrote = false`) and the store is unchanged. -/
theorem C5_ingestion_idempotent (store : Store) (commits : List Commit) :
    (insert_new_commits_into_database
        (insert_new_commits_into_database store commits).store commits).wrote
      = false ∧
    (insert_new_commits_into_database
        (insert_new_commits_into_database store commits).store commits).store
      = (insert_new_commits_into_database store commits).store := by
  set s1 := (insert_new_commits_into_database store commits).store with hs1
  have hempty :
      buildInsert commits (findExistingIds s1 (commits.map (·.id))) = [] := by
    rw [buildInsert_eq]
    have hall : ∀ c ∈ commits, (!presentGit s1 c.id) = false := by
      intro c hc
      rw [hs1, presentGit_after_insert store commits c hc]
      rfl
    rw [List.filter_congr hall, List.filter_false, List.map_nil]
  have h2 : insert_new_commits_into_database s1 commits =
      { store := s1, wrote := false } := by
    simp only [insert_new_commits_into_database, hempty]
    rfl
  rw [h2]
  exact ⟨rfl, rfl⟩

/-- C8: for every cycle outcome, the scheduling operation completes without
a process-fatal panic, returns the same fixed 15-minute delay
(`Some(900000 ms)`), and reports a failed cycle (and nothing else) through
the error side channel. -/
theorem C8_fixed_delay_and_error_reporting (u : Except String Unit) :
    request_loop u =
      .finished
        { reported :=
            match u with
            | .error e => ["Unable to refresh recent commits: " ++ e]
            | .ok _ => [],
          delay := some (15 * 60000) } := by
  cases u <;> rfl

/-- C10 (implicit): the dedup gate checks candidate ids only against the
store, not within the batch: a batch holding the same absent id X twice
yields two records with id X appended by the single batch-insert call. -/
theorem C10_in_batch_duplicates_both_inserted :
    insert_new_commits_into_database [] [dupOne, dupTwo] =
      { store := [commitToEvent dupOne, commitToEvent dupTwo],
        wrote := true } ∧
    (commitToEvent dupOne).id = "X" ∧ (commitToEvent dupTwo).id = "X" :=
  ⟨rfl, rfl, rfl⟩

/-- A commit whose timezone offset is far outside the representable offset
range (100000 minutes west). -/
def outOfRangeCommit : RawCommit :=
  { id := "deadbeef", message := some "msg", seconds := 0,
    offsetMinutes := 100000, author := "Bob" }

/-- A repository directory whose walk yields only the out-of-range commit. -/
def outOfRangeDir : RepoDir :=
  { path := "/repos/weird", fileName := some "weird",
    access := .walk [.commit outOfRangeCommit] }

/-- C2: for every commit whose offset or timestamp is outside the
representable range, the normalization `unwrap` panics only inside the
walker thread; the join converts it into an error, so the caller of
`get_commits_in_repo` receives an error (never a crash) and the store is
untouched. -/
theorem C2_out_of_range_time_errors_caller (store : Store) (d : RepoDir)
    (repoName : String) (c : RawCommit) (m : String) (rest : List WalkStep)
    (hname : d.fileName = some repoName)
    (hacc : d.access = .walk (.commit c :: rest))
    (hmsg : c.message = some m)
    (hrange : FixedOffset.west_opt (c.offsetMinutes * 60) = none ∨
      ∃ o, FixedOffset.west_opt (c.offsetMinutes * 60) = some o ∧
        o.timestamp_millis_opt (c.seconds * 1000) = none) :
    threadBody d.path repoName d.access =
        .panicked "called Option::unwrap() on a None value" ∧
      get_commits_in_repo store d =
        (store, .error ("Unable to join handle on update thread: " ++
          "called Option::unwrap() on a None value")) := by
  have hnorm : normalizeCommitTime c.seconds c.offsetMinutes =
      .panicked "called Option::unwrap() on a None value" := by
    rcases hrange with h | ⟨o, ho, ht⟩
    · unfold normalizeCommitTime
      rw [h]
    · unfold normalizeCommitTime
      simp only [ho, ht]
  have hbody : threadBody d.path repoName d.access =
      .panicked "called Option::unwrap() on a None value" := by
    rw [hacc]
    simp only [threadBody, parseSteps, hmsg, hnorm]
  refine ⟨hbody, ?_⟩
  simp only [get_commits_in_repo, hname, hbody, joinHandle]

/-- Witness for C2 at a concrete out-of-range offset (100000 minutes). -/
theorem C2_witness :
    outOfRangeDir.fileName = some "weird" ∧
    outOfRangeDir.access = .walk (.commit outOfRangeCommit :: []) ∧
    outOfRangeCommit.message = some "msg" ∧
    FixedOffset.west_opt (outOfRangeCommit.offsetMinutes * 60) = none ∧
    (threadBody outOfRangeDir.path "weird" outOfRangeDir.access =
        .panicked "called Option::unwrap() on a None value" ∧
      get_commits_in_repo [] outOfRangeDir =
        ([], .error ("Unable to join handle on update thread: " ++
          "called Option::unwrap() on a None value"))) :=
  ⟨rfl, rfl, rfl, rfl,
    C2_out_of_range_time_errors_caller [] outOfRangeDir "weird"
      outOfRangeCommit "msg" [] rfl rfl rfl (Or.inl rfl)⟩

/-- C3: for every in-range (epoch seconds, offset minutes) pair the
normalizer constructs the offset by negating the minutes-west source value
(`eastSeconds = -(60·m)`), keeps the absolute instant `s` seconds as the
UTC result, and reading that UTC instant back through the constructed
offset reproduces the original minutes-west local wall-clock time
`s - 60·m` (in milliseconds). -/
theorem C3_offset_negation_roundtrip (s m : Int) (o : FixedOffset)
    (t : DateTimeTz)
    (ho : FixedOffset.west_opt (m * 60) = some o)
    (ht : o.timestamp_millis_opt (s * 1000) = some t) :
    normalizeCommitTime s m = .finished t ∧
    o.eastSeconds = -(m * 60) ∧
    t.toUtc = s * 1000 ∧
    DateTimeTz.localMillis ⟨t.toUtc, o⟩ = (s - 60 * m) * 1000 := by
  have hoe : o.eastSeconds = -(m * 60) := by
    unfold FixedOffset.west_opt at ho
    split at ho
    · cases ho
      rfl
    · cases ho
  have htt : t = ⟨s * 1000, o⟩ := by
    unfold FixedOffset.timestamp_millis_opt at ht
    split at ht
    · cases ht
      rfl
    · cases ht
  refine ⟨?_, hoe, ?_, ?_⟩
  · unfold normalizeCommitTime
    simp only [ho, ht]
  · rw [htt]
    rfl
  · rw [htt]
    unfold DateTimeTz.localMillis DateTimeTz.toUtc
    dsimp
    rw [hoe]
    ring

/-- Witness for C3 at seconds 10, offset 90 minutes west. -/
theorem C3_witness :
    FixedOffset.west_opt (90 * 60) = some ⟨-5400⟩ ∧
    FixedOffset.timestamp_millis_opt ⟨-5400⟩ (10 * 1000) =
      some ⟨10000, ⟨-5400⟩⟩ ∧
    (normalizeCommitTime 10 90 = .finished ⟨10000, ⟨-5400⟩⟩ ∧
      FixedOffset.eastSeconds ⟨-5400⟩ = -(90 * 60) ∧
      DateTimeTz.toUtc ⟨10000, ⟨-5400⟩⟩ = 10 * 1000 ∧
      DateTimeTz.localMillis ⟨DateTimeTz.toUtc ⟨10000, ⟨-5400⟩⟩, ⟨-5400⟩⟩ =
        (10 - 60 * 90) * 1000) :=
  ⟨by decide, by decide,
    C3_offset_negation_roundtrip 10 90 ⟨-5400⟩ ⟨10000, ⟨-5400⟩⟩
      (by decide) (by decide)⟩

/-- If every commit before some position parses cleanly and the commit at
that position has no message, the whole walk loop stops with the
missing-message error. -/
theorem parseSteps_missing_message (path repoName : String)
    (pre : List RawCommit) (c : RawCommit) (post : List WalkStep)
    (hpre : ∀ p ∈ pre, ∃ mp tp, p.message = some mp ∧
      normalizeCommitTime p.seconds p.offsetMinutes = .finished tp)
    (hc : c.message = none) :
    parseSteps path repoName
        (pre.map WalkStep.commit ++ WalkStep.commit c :: post) =
      .finished
        (.error ("Unable to read commit message: \nPath: " ++ path)) := by
  induction pre with
  | nil =>
    simp only [List.map_nil, List.nil_append]
    unfold parseSteps
    rw [hc]
  | cons p rest ih =>
    obtain ⟨mp, tp, hm, hn⟩ := hpre p (by simp)
    have ihh := ih fun q hq => hpre q (by simp [hq])
    simp only [List.map_cons, List.cons_append]
    unfold parseSteps
    simp only [hm, hn, ihh]

/-- A commit that parses cleanly, preceding the broken one. -/
def goodRawCommit : RawCommit :=
  { id := "goodid", message := some "good message", seconds := 1700000000,
    offsetMinutes := 120, author := "Carol" }

/-- A commit with no message. -/
def noMessageCommit : RawCommit :=
  { id := "badid", message := none, seconds := 1700000100,
    offsetMinutes := 0, author := "Dave" }

/-- A repository whose walk yields one good commit and then a commit with
no message. -/
def missingMsgDir : RepoDir :=
  { path := "/repos/broken", fileName := some "broken",
    access := .walk
      ([goodRawCommit].map WalkStep.commit ++
        WalkStep.commit noMessageCommit :: []) }

/-- C6: a visited commit with no message makes the whole per-repository
walk fail with the missing-message error (which names the repository path,
being the literal prefix followed by `d.path`); the caller gets that error
with the store unchanged, so none of the commits parsed before it are
inserted and no placeholder message is substituted. -/
theorem C6_missing_message_aborts_repo (store : Store) (d : RepoDir)
    (repoName : String) (pre : List RawCommit) (c : RawCommit)
    (post : List WalkStep)
    (hname : d.fileName = some repoName)
    (hacc : d.access = .walk
      (pre.map WalkStep.commit ++ WalkStep.commit c :: post))
    (hpre : ∀ p ∈ pre, ∃ mp tp, p.message = some mp ∧
      normalizeCommitTime p.seconds p.offsetMinutes = .finished tp)
    (hc : c.message = none) :
    get_commits_in_repo store d =
      (store, .error ("Unable to read commit message: \nPath: " ++ d.path)) := by
  have hwalk := parseSteps_missing_message d.path repoName pre c post hpre hc
  simp only [get_commits_in_repo, hname, threadBody, hacc, hwalk, joinHandle]

/-- Witness for C6: one clean commit followed by a message-less commit. -/
theorem C6_witness :
    missingMsgDir.fileName = some "broken" ∧
    missingMsgDir.access = .walk
      ([goodRawCommit].map WalkStep.commit ++
        WalkStep.commit noMessageCommit :: []) ∧
    (∀ p ∈ [goodRawCommit], ∃ mp tp, p.message = some mp ∧
      normalizeCommitTime p.seconds p.offsetMinutes = .finished tp) ∧
    noMessageCommit.message = none ∧
    get_commits_in_repo storeAB missingMsgDir =
      (storeAB,
        .error ("Unable to read commit message: \nPath: " ++
          missingMsgDir.path)) := by
  have hpre : ∀ p ∈ [goodRawCommit], ∃ mp tp, p.message = some mp ∧
      normalizeCommitTime p.seconds p.offsetMinutes = .finished tp := by
    intro p hp
    rw [List.mem_singleton] at hp
    subst hp
    exact ⟨"good message", ⟨1700000000000, ⟨-7200⟩⟩, rfl, by decide⟩
  exact ⟨rfl, rfl, hpre, rfl,
    C6_missing_message_aborts_repo storeAB missingMsgDir "broken"
      [goodRawCommit] noMessageCommit [] rfl rfl hpre rfl⟩

/- ### Scan fixtures -/

/-- A directory entry whose repository fails to open. -/
def corruptEntry : DirEntry :=
  { fileTypeResult := .ok .dir,
    repoDir :=
      { path := "/repos/corrupt", fileName := some "corrupt",
        access := .openErr "could not find repository" } }

/-- The single commit of the healthy sibling repository. -/
def validRawCommit : RawCommit :=
  { id := "abc123", message := some "initial commit", seconds := 1700000000,
    offsetMinutes := 0, author := "Alice" }

/-- A directory entry whose repository opens and yields one commit. -/
def validEntry : DirEntry :=
  { fileTypeResult := .ok .dir,
    repoDir :=
      { path := "/repos/valid", fileName := some "valid",
        access := .walk [.commit validRawCommit] } }

/-- A regular-file entry in the root folder (not a repository). -/
def plainFileEntry : DirEntry :=
  { fileTypeResult := .ok .file,
    repoDir :=
      { path := "/repos/notes.txt", fileName := some "notes.txt",
        access := .openErr "unused" } }

/-- C7: when every entry's file-type probe succeeds, the scan cycle equals
the walker folded over exactly the entries that are directories, in order:
non-directory entries are skipped without contributing an error or a walk. -/
theorem C7_scan_processes_exactly_directories (store : Store)
    (entries : List DirEntry)
    (h : ∀ e ∈ entries, e.fileTypeResult.isOk = true) :
    update_commits_aux store entries =
      foldRepos store
        ((entries.filter fun e =>
          decide (e.fileTypeResult = .ok EntryType.dir)).map (·.repoDir)) := by
  induction entries generalizing store with
  | nil => rfl
  | cons entry rest ih =>
    have hok := h entry (by simp)
    have hrest : ∀ e ∈ rest, e.fileTypeResult.isOk = true :=
      fun e he => h e (by simp [he])
    cases hft : entry.fileTypeResult with
    | error err =>
      rw [hft] at hok
      simp [Except.isOk, Except.toBool] at hok
    | ok t =>
      by_cases ht : t = EntryType.dir
      · subst ht
        rcases hg : get_commits_in_repo store entry.repoDir with ⟨store2, r⟩
        cases r with
        | error err2 =>
          simp [update_commits_aux, foldRepos, hft, hg, List.filter_cons]
        | ok u =>
          simp [update_commits_aux, foldRepos, hft, hg, List.filter_cons,
            ih store2 hrest]
      · simp [update_commits_aux, foldRepos, hft, ht, List.filter_cons,
          ih store hrest]

/-- Witness for C7: a root folder holding one regular file and one
repository directory. -/
theorem C7_witness :
    (∀ e ∈ [plainFileEntry, validEntry], e.fileTypeResult.isOk = true) ∧
    update_commits_aux [] [plainFileEntry, validEntry] =
      foldRepos []
        (([plainFileEntry, validEntry].filter fun e =>
          decide (e.fileTypeResult = .ok EntryType.dir)).map (·.repoDir)) :=
  ⟨by decide,
    C7_scan_processes_exactly_directories [] [plainFileEntry, validEntry]
      (by decide)⟩

/- ### Query adapter lemmas -/

/-- A healthy cursor maps each filtered record to a summary titled with its
repository name. -/
theorem collectEvents_map_ok (l : List (Event DatabaseCommit)) :
    collectEvents (l.map Except.ok) =
      .ok (l.map fun t =>
        { title := t.event.repository_name, time := t.timing,
          data := t.event }) := by
  induction l with
  | nil => rfl
  | cons t rest ih => simp only [List.map_cons, collectEvents, ih]

/-- The first failing stream item aborts the whole query with its error. -/
theorem collectEvents_first_error
    (pre : List (Except String (Event DatabaseCommit))) (e : String)
    (post : List (Except String (Event DatabaseCommit)))
    (h : ∀ x ∈ pre, x.isOk = true) :
    collectEvents (pre ++ .error e :: post) = .error e := by
  induction pre with
  | nil => rfl
  | cons x rest ih =>
    have hok := h x (by simp)
    cases x with
    | error e2 => simp [Except.isOk, Except.toBool] at hok
    | ok t =>
      have ihh := ih fun q hq => h q (by simp [hq])
      simp only [List.cons_append, collectEvents, List.append_eq, ihh]

/-- C9: the query keeps exactly the records matching (source tag is this
component) AND (timing intersects the range), producing one summary per
record titled with its repository name; and any failing stream item makes
the whole query return that error, so no partial result set survives. -/
theorem C9_query_filter_and_abort_on_error (store : Store)
    (range : TimeRange)
    (pre post : List (Except String (Event DatabaseCommit))) (e : String)
    (hpre : ∀ x ∈ pre, x.isOk = true) :
    get_compressed_events store range =
      .ok ((store.filter (matchesQuery range)).map fun t =>
        { title := t.event.repository_name, time := t.timing,
          data := t.event }) ∧
    collectEvents (pre ++ .error e :: post) = .error e :=
  ⟨collectEvents_map_ok (store.filter (matchesQuery range)),
    collectEvents_first_error pre e post hpre⟩

/-- A stored git-tagged record inside the query range. -/
def queryEventIn : Event DatabaseCommit :=
  { timing := .instant 50, id := "abc123",
    plugin := .timeline_plugin_git,
    event :=
      { message := "initial commit", author := "Alice",
        repository_name := "valid" } }

/-- A stored git-tagged record outside the query range. -/
def queryEventOut : Event DatabaseCommit :=
  { timing := .instant 5000, id := "zzz",
    plugin := .timeline_plugin_git,
    event :=
      { message := "later commit", author := "Alice",
        repository_name := "valid" } }

/-- A record persisted by some other plugin. -/
def foreignEvent : Event DatabaseCommit :=
  { timing := .instant 60, id := "f1", plugin := .other "p",
    event := { message := "x", author := "y", repository_name := "z" } }

/-- Witness for C9 on a three-record store and a one-good-item broken
stream. -/
theorem C9_witness :
    (∀ x ∈ ([Except.ok queryEventIn] :
        List (Except String (Event DatabaseCommit))), Except.isOk x = true) ∧
    (get_compressed_events [queryEventIn, queryEventOut, foreignEvent]
        ⟨0, 100⟩ =
      .ok (([queryEventIn, queryEventOut, foreignEvent].filter
          (matchesQuery ⟨0, 100⟩)).map fun t =>
        { title := t.event.repository_name, time := t.timing,
          data := t.event }) ∧
    collectEvents
        ([Except.ok queryEventIn] ++ .error "stream broke" :: []) =
      .error "stream broke") :=
  ⟨by decide,
    C9_query_filter_and_abort_on_error
      [queryEventIn, queryEventOut, foreignEvent] ⟨0, 100⟩
      [Except.ok queryEventIn] [] "stream broke" (by decide)⟩

/- ### C1: error isolation across sibling repositories -/

/-- Counterexample to C1: in a root folder with one corrupt and one valid
repository, when the corrupt one comes first in iteration order the cycle
aborts at it (the `?` in `update_commits` propagates the error), so the
valid sibling's commit is never persisted — even though the valid
repository alone does persist it. -/
theorem C1_counterexample :
    update_commits [] (.ok [corruptEntry, validEntry]) =
      ([], .error
        "Unable to read repository: \nPath: /repos/corrupt \nError: could not find repository") ∧
    presentGit (update_commits [] (.ok [corruptEntry, validEntry])).1
      "abc123" = false ∧
    presentGit (update_commits [] (.ok [validEntry])).1 "abc123" = true :=
  ⟨rfl, rfl, rfl⟩

/-- C1 amended: a failing repository directory aborts the scan cycle at
that directory with a single error (here: a failed open); siblings earlier
in iteration order have already been processed and their commits persist,
and siblings after it are not processed in that cycle. -/
theorem C1_amended_scan_aborts_at_first_failure (store : Store)
    (pre post : List DirEntry) (d : DirEntry) (name e : String)
    (hpre : (update_commits_aux store pre).2 = .ok ())
    (hft : d.fileTypeResult = .ok .dir)
    (hname : d.repoDir.fileName = some name)
    (hacc : d.repoDir.access = .openErr e) :
    update_commits_aux store (pre ++ d :: post) =
      ((update_commits_aux store pre).1,
        .error ("Unable to read repository: \nPath: " ++ d.repoDir.path ++
          " \nError: " ++ e)) := by
  induction pre generalizing store with
  | nil =>
    have hrepo : get_commits_in_repo store d.repoDir =
        (store, .error ("Unable to read repository: \nPath: " ++
          d.repoDir.path ++ " \nError: " ++ e)) := by
      simp only [get_commits_in_repo, hname, threadBody, hacc, joinHandle]
    simp [update_commits_aux, hft, hrepo]
  | cons entry rest ih =>
    cases hftE : entry.fileTypeResult with
    | error err =>
      simp [update_commits_aux, hftE] at hpre
    | ok t =>
      by_cases ht : t = EntryType.dir
      · subst ht
        rcases hg : get_commits_in_repo store entry.repoDir with ⟨store2, r⟩
        cases r with
        | error err2 =>
          simp [update_commits_aux, hftE, hg] at hpre
        | ok u =>
          have hstep : update_commits_aux store (entry :: rest) =
              update_commits_aux store2 rest := by
            simp [update_commits_aux, hftE, hg]
          have hstep2 :
              update_commits_aux store ((entry :: rest) ++ d :: post) =
                update_commits_aux store2 (rest ++ d :: post) := by
            simp [update_commits_aux, hftE, hg]
          rw [hstep] at hpre
          rw [hstep2, hstep]
          exact ih store2 hpre
      · have hstep : update_commits_aux store (entry :: rest) =
            update_commits_aux store rest := by
          simp [update_commits_aux, hftE, ht]
        have hstep2 :
            update_commits_aux store ((entry :: rest) ++ d :: post) =
              update_commits_aux store (rest ++ d :: post) := by
          simp [update_commits_aux, hftE, ht]
        rw [hstep] at hpre
        rw [hstep2, hstep]
        exact ih store hpre

/-- Witness for the amended C1: the valid repository first, the corrupt one
second — the valid sibling's processing persists and the cycle ends with
the corrupt repository's open error. -/
theorem C1_witness :
    (update_commits_aux [] [validEntry]).2 = .ok () ∧
    update_commits_aux [] ([validEntry] ++ corruptEntry :: []) =
      ((update_commits_aux [] [validEntry]).1,
        .error ("Unable to read repository: \nPath: " ++
          corruptEntry.repoDir.path ++ " \nError: " ++
          "could not find repository")) :=
  ⟨rfl,
    C1_amended_scan_aborts_at_first_failure [] [validEntry] [] corruptEntry
      "corrupt" "could not find repository" rfl rfl rfl rfl⟩

end GitPlugin
